import Mathlib

/-!
# Verification of the stl-java series normalizer (`convert-frame.py`)

This file is a shallow embedding of the series-normalizer script
`src/test/resources/convert-frame.py`, which reads whitespace-delimited lines
`<year> <v1> <v2> ...`, pairs each value with the first day of the corresponding
month, and prints a single JSON document with two parallel arrays `ts`
(epoch seconds) and `ys` (values).

Modelling conventions:

* Input is a list of lines (the lines yielded by `fileinput.input()`; a
  trailing newline on a line is irrelevant because the script right-strips it).
* Python exceptions (ValueError from `int`/`float`/`strptime`) abort the run
  before the single final `print`; the pipeline is therefore modelled in the
  `Option` monad, `none` meaning the process died with no output.
* Python floats are modelled as rationals and the `float` literal parser is
  modelled on finite decimal literals (optionally signed, optional fraction,
  optional decimal exponent), which is the number format of this data set;
  the special spellings inf/nan are not modelled.
* `datetime.strptime(s, "%Y-%m")` is modelled by its observable behaviour:
  CPython matches `%Y` against exactly four digits and `%m` against one or two
  digits, requires the whole string to be consumed, and validates the month
  range, so the formatted string `str(year) ++ "-" ++ zeroPad2 month` parses
  back exactly when 1000 ≤ year ≤ 9999 and 1 ≤ month ≤ 12, producing the date
  (year, month, 1).
* `int(x.strftime("%s"))` (epoch seconds of local midnight) is modelled as
  `86400 * (days from 1970-01-01 in the proleptic Gregorian calendar) - tz`,
  where `tz` is the fixed UTC offset (in seconds, east positive) of the local
  zone; theorems quantify over `tz`.
-/

namespace ConvertFrame

/-- The characters matched by the regex class `\s` (and stripped by
`str.rstrip()`): space, tab, newline, vertical tab, form feed, carriage
return. -/
def isPySpace (c : Char) : Bool :=
  c == ' ' || c == '\t' || c == '\n' || c == '\x0b' || c == '\x0c' || c == '\r'

/-- `str.rstrip()` on a character list: remove the maximal trailing run of
whitespace characters. -/
def rstripChars : List Char → List Char
  | [] => []
  | c :: cs =>
    if (rstripChars cs).isEmpty && isPySpace c then [] else c :: rstripChars cs

/-- Helper for `re.split('\s+', s)`: splits at each maximal whitespace run,
accumulating the current (reversed) token in `acc`; `inSep` records whether
the previous character was part of a whitespace run (so further whitespace
extends the run instead of emitting another token).  A separator at the very
start contributes a leading empty token, exactly as Python's `re.split` does. -/
def splitRuns : List Char → Bool → List Char → List String
  | [], _, acc => [String.mk acc.reverse]
  | c :: cs, inSep, acc =>
    if isPySpace c then
      if inSep then splitRuns cs true acc
      else String.mk acc.reverse :: splitRuns cs true []
    else splitRuns cs false (c :: acc)

/-- `re.split('\s+', line.rstrip())` (line 13 of the script). -/
def pyTokens (line : String) : List String :=
  splitRuns (rstripChars line.toList) false []

/-- Numeric value of a list of decimal digit characters. -/
def decDigitsVal (ds : List Char) : Nat :=
  ds.foldl (fun a c => 10 * a + (c.toNat - 48)) 0

/-- Parse a non-empty all-digit string to a natural number. -/
def parseNatDigits (ds : List Char) : Option Nat :=
  if !ds.isEmpty && ds.all Char.isDigit then some (decDigitsVal ds) else none

/-- Strip leading and trailing whitespace (Python's `str.strip()`, applied by
`int()` and `float()` to their argument). -/
def stripChars (cs : List Char) : List Char :=
  rstripChars (cs.dropWhile isPySpace)

/-- Python's `int(s)` on a decimal string: optional surrounding whitespace,
optional sign, then a non-empty run of digits.  Anything else raises
ValueError, modelled as `none`. -/
def pyInt (s : String) : Option Int :=
  match stripChars s.toList with
  | '+' :: ds => (parseNatDigits ds).map (fun n => (n : Int))
  | '-' :: ds => (parseNatDigits ds).map (fun n => -(n : Int))
  | ds => (parseNatDigits ds).map (fun n => (n : Int))

/-- Split a character list at the first `e`/`E` (exponent marker of a float
literal): returns the mantissa part and, when a marker is present, the
exponent part. -/
def splitAtExp : List Char → List Char × Option (List Char)
  | [] => ([], none)
  | c :: cs =>
    if c == 'e' || c == 'E' then ([], some cs)
    else
      let (m, e) := splitAtExp cs
      (c :: m, e)

/-- Consume an optional leading sign, returning the sign as `1` or `-1`. -/
def parseSign : List Char → Int × List Char
  | '+' :: cs => (1, cs)
  | '-' :: cs => (-1, cs)
  | cs => (1, cs)

/-- Parse the unsigned mantissa of a float literal: `d+ (. d*)? | . d+`.
Returns the concatenated digit value and the number of fractional digits. -/
def parseMantissa (cs : List Char) : Option (Nat × Nat) :=
  let ip := cs.takeWhile Char.isDigit
  let rest := cs.dropWhile Char.isDigit
  match rest with
  | [] => if ip.isEmpty then none else some (decDigitsVal ip, 0)
  | '.' :: fp =>
    if fp.all Char.isDigit && !(ip.isEmpty && fp.isEmpty) then
      some (decDigitsVal (ip ++ fp), fp.length)
    else none
  | _ => none

/-- The exact rational `sgn * sig * 10 ^ (e - fdigits)`, built from the core
rational constructor so that it evaluates by kernel reduction. -/
def decValue (sgn : Int) (sig : Nat) (fdigits : Nat) (e : Int) : ℚ :=
  let ex : Int := e - fdigits
  if 0 ≤ ex then mkRat (sgn * sig * (10 ^ ex.toNat : Nat)) 1
  else mkRat (sgn * sig) (10 ^ (-ex).toNat)

/-- Python's `float(s)` on a finite decimal literal: optional surrounding
whitespace, optional sign, mantissa `d+(.d*)? | .d+`, optional exponent
`[eE][+-]?d+`.  A string outside this grammar raises ValueError (`none`). -/
def pyFloat (s : String) : Option ℚ :=
  let cs := stripChars s.toList
  let (sgn, cs₁) := parseSign cs
  let (mant, ex) := splitAtExp cs₁
  match parseMantissa mant, ex with
  | some (sig, fdigits), none => some (decValue sgn sig fdigits 0)
  | some (sig, fdigits), some ecs =>
    let (esgn, eds) := parseSign ecs
    match parseNatDigits eds with
    | some e => some (decValue sgn sig fdigits (esgn * (e : Int)))
    | none => none
  | none, _ => none

/-- Gregorian leap-year rule (as used by Python's `datetime`). -/
def isLeap (y : Int) : Bool :=
  (y % 4 == 0 && y % 100 != 0) || y % 400 == 0

/-- Cumulative day count before month `m` (1-based) in a year, `leap` telling
whether the year is a leap year.  Months outside 1..12 never reach this
function on a successful run. -/
def daysBeforeMonth (leap : Bool) (m : Nat) : Int :=
  (match m with
   | 1 => 0 | 2 => 31 | 3 => 59 | 4 => 90 | 5 => 120 | 6 => 151
   | 7 => 181 | 8 => 212 | 9 => 243 | 10 => 273 | 11 => 304 | 12 => 334
   | _ => 0)
  + (if leap && 3 ≤ m then 1 else 0)

/-- Number of leap days in the years `[1, y)` of the proleptic Gregorian
calendar. -/
def leapDaysBefore (y : Int) : Int :=
  (y - 1) / 4 - (y - 1) / 100 + (y - 1) / 400

/-- Days from 1970-01-01 to the first day of month `m` of year `y` in the
proleptic Gregorian calendar (the calendar Python's `datetime` uses). -/
def daysFromEpoch (y : Int) (m : Nat) : Int :=
  365 * (y - 1970) + (leapDaysBefore y - leapDaysBefore 1970) + daysBeforeMonth (isLeap y) m

/-- `int(d.strftime("%s"))` for a datetime at midnight on the first of a
month: epoch seconds of local midnight, `tz` being the local zone's fixed UTC
offset in seconds (east positive). -/
def epochOfDate (tz : Int) (d : Int × Nat) : Int :=
  86400 * daysFromEpoch d.1 d.2 - tz

/-- `datetime.strptime('{0}-{1:02d}'.format(year, m), '%Y-%m')` (lines 16/18
of the script).  CPython's `%Y` pattern is exactly four digits and `%m` is one
or two digits, the whole string must be consumed, and the month must be a
valid calendar month; hence success exactly when `str(year)` is four digits
(no sign) and `1 ≤ m ≤ 12`, the result being the date `(year, m, 1)`. -/
def strptimeYM (year : Int) (m : Nat) : Option (Int × Nat) :=
  if 1000 ≤ year ∧ year ≤ 9999 ∧ 1 ≤ m ∧ m ≤ 12 then some (year, m) else none

/-- The inner loop of the script (lines 15-20): for each value token at
1-based position `i`, parse it with `float`, build the month-`i` date with
`strptime`, and append (date, value) to the accumulating lists.  Any
exception kills the run (`none`). -/
def processRow (year : Int) : Nat → List String → Option (List (Int × Nat) × List ℚ)
  | _, [] => some ([], [])
  | i, t :: rest =>
    (pyFloat t).bind fun v =>
      (strptimeYM year i).bind fun d =>
        (processRow year (i + 1) rest).map fun p => (d :: p.1, v :: p.2)

/-- One iteration of the outer loop (lines 12-20): tokenize the line, parse
the year with `int`, then run the inner loop over the value tokens with month
indices starting at 1. -/
def processLine (line : String) : Option (List (Int × Nat) × List ℚ) :=
  (pyInt ((pyTokens line).headD "")).bind fun year =>
    processRow year 1 ((pyTokens line).drop 1)

/-- The whole outer loop: process every line in order, concatenating the
per-line `ts`/`ys` contributions.  Any failing line aborts the run. -/
def normalize : List String → Option (List (Int × Nat) × List ℚ)
  | [] => some ([], [])
  | l :: ls =>
    (processLine l).bind fun p₁ =>
      (normalize ls).map fun p₂ => (p₁.1 ++ p₂.1, p₁.2 ++ p₂.2)

/-- The output arrays (lines 22-25): the collected dates converted to epoch
seconds with `strftime("%s")` plus `int`, and the collected values. -/
def runOutput (tz : Int) (input : List String) : Option (List Int × List ℚ) :=
  (normalize input).map (fun p => (p.1.map (epochOfDate tz), p.2))

/-- A JSON value, as far as this script's output shape is concerned. -/
inductive Json where
  | jnum : ℚ → Json
  | jint : Int → Json
  | jstr : String → Json
  | jarr : List Json → Json
  | jobj : List (String × Json) → Json

/-- Key list of a JSON object. -/
def Json.keys : Json → List String
  | .jobj fs => fs.map Prod.fst
  | _ => []

/-- Field lookup in a JSON object. -/
def Json.field (j : Json) (name : String) : Option Json :=
  match j with
  | .jobj fs => (fs.find? (fun f => f.1 == name)).map Prod.snd
  | _ => none

/-- Is this JSON value an array all of whose elements are integers? -/
def Json.isIntArray : Json → Bool
  | .jarr xs => xs.all (fun x => match x with | .jint _ => true | _ => false)
  | _ => false

/-- Is this JSON value an array all of whose elements are (float) numbers? -/
def Json.isNumArray : Json → Bool
  | .jarr xs => xs.all (fun x => match x with | .jnum _ => true | _ => false)
  | _ => false

/-- `print json.dumps({'ts': ..., 'ys': ...})` (lines 22-27): the single JSON
document the process writes to stdout on success; `none` when the run died
before the final print. -/
def jsonDoc (tz : Int) (input : List String) : Option Json :=
  (runOutput tz input).map (fun p =>
    Json.jobj [("ts", Json.jarr (p.1.map Json.jint)),
               ("ys", Json.jarr (p.2.map Json.jnum))])

/-- The value tokens of a line: every token after the first. -/
def valueTokens (line : String) : List String :=
  (pyTokens line).drop 1

/-- The year a line's first token parses to (`0` as a don't-care default when
parsing fails, which on a successful run never happens). -/
def lineYear (line : String) : Int :=
  (pyInt ((pyTokens line).headD "")).getD 0

/-- The dates a line contributes: months 1, 2, ... of its year, one per value
token, in token order. -/
def lineMonths (line : String) : List (Int × Nat) :=
  (List.range (valueTokens line).length).map (fun k => (lineYear line, k + 1))

/-- Total number of value tokens across all input lines. -/
def totalValues (input : List String) : Nat :=
  (input.map (fun l => (valueTokens l).length)).sum

/-- A line the script accepts: the first token parses as an `int` whose
decimal form has exactly four digits (so `strptime`'s `%Y` matches it back),
every value token parses as a `float`, and there are at most 12 value tokens
(so every constructed month is a valid calendar month). -/
def validLine (line : String) : Bool :=
  ((pyInt ((pyTokens line).headD "")).any (fun y => decide (1000 ≤ y) && decide (y ≤ 9999))) &&
  (valueTokens line).all (fun t => (pyFloat t).isSome) &&
  decide ((valueTokens line).length ≤ 12)

/-- A line containing a malformed token in the sense of the spec: a first
token `int` rejects, or a value token `float` rejects. -/
def malformedLine (l : String) : Bool :=
  (pyInt ((pyTokens l).headD "")).isNone ||
  (valueTokens l).any (fun t => (pyFloat t).isNone)

/-- `true` iff the line is empty or begins with a whitespace character. -/
def lineStartsBlank (l : String) : Bool :=
  isPySpace (l.toList.headD ' ')

/-- The years of the input lines, in order. -/
def yearsOf (input : List String) : List Int :=
  input.map lineYear

/-- Lexicographic order on (year, month) dates. -/
def dateLe (d d' : Int × Nat) : Prop :=
  d.1 < d'.1 ∨ (d.1 = d'.1 ∧ d.2 ≤ d'.2)

instance : DecidablePred (fun p : (Int × Nat) × (Int × Nat) => dateLe p.1 p.2) :=
  fun _ => by unfold dateLe; infer_instance

/-! ## Equation and inversion lemmas for the pipeline -/

lemma processRow_nil (year : Int) (i : Nat) : processRow year i [] = some ([], []) := rfl

lemma processRow_cons (year : Int) (i : Nat) (t : String) (rest : List String) :
    processRow year i (t :: rest) =
      (pyFloat t).bind fun v =>
        (strptimeYM year i).bind fun d =>
          (processRow year (i + 1) rest).map fun p => (d :: p.1, v :: p.2) := rfl

lemma range_map_month (year : Int) (i n : Nat) :
    (List.range (n + 1)).map (fun k => (year, i + k)) =
      (year, i) :: (List.range n).map (fun k => (year, i + 1 + k)) := by
  rw [List.range_succ_eq_map, List.map_cons, List.map_map]
  congr 1
  refine List.map_congr_left fun a ha => ?_
  show ((year : Int), i + (a + 1)) = (year, i + 1 + a)
  have : i + (a + 1) = i + 1 + a := by omega
  rw [this]

lemma processRow_inv {year : Int} {toks : List String} {i : Nat}
    {ts : List (Int × Nat)} {ys : List ℚ}
    (h : processRow year i toks = some (ts, ys)) :
    ts = (List.range toks.length).map (fun k => (year, i + k)) ∧
    ys = toks.filterMap pyFloat ∧
    (toks = [] ∨ (1000 ≤ year ∧ year ≤ 9999 ∧ 1 ≤ i ∧ i + toks.length ≤ 13)) := by
  induction toks generalizing i ts ys with
  | nil =>
    rw [processRow_nil] at h
    simp only [Option.some.injEq, Prod.mk.injEq] at h
    obtain ⟨h1, h2⟩ := h
    subst h1; subst h2
    simp
  | cons t rest ih =>
    rw [processRow_cons, Option.bind_eq_some] at h
    obtain ⟨v, hv, h⟩ := h
    rw [Option.bind_eq_some] at h
    obtain ⟨d, hd, h⟩ := h
    rw [Option.map_eq_some'] at h
    obtain ⟨p, hp, h⟩ := h
    obtain ⟨h1, h2, h3⟩ := ih hp
    unfold strptimeYM at hd
    split at hd
    · rename_i hcond
      obtain ⟨hy1, hy2, hi1, hi2⟩ := hcond
      simp only [Option.some.injEq] at hd
      subst hd
      simp only [Prod.mk.injEq] at h
      obtain ⟨h4, h5⟩ := h
      subst h4; subst h5
      refine ⟨?_, ?_, Or.inr ⟨hy1, hy2, hi1, ?_⟩⟩
      · rw [List.length_cons, range_map_month, h1]
      · rw [h2, List.filterMap_cons, hv]
      · rcases h3 with h3 | ⟨_, _, _, h3⟩
        · subst h3; simp only [List.length_cons, List.length_nil]; omega
        · simp only [List.length_cons]; omega
    · exact absurd hd (by simp)

lemma processLine_inv {line : String} {ts : List (Int × Nat)} {ys : List ℚ}
    (h : processLine line = some (ts, ys)) :
    pyInt ((pyTokens line).headD "") = some (lineYear line) ∧
    ts = lineMonths line ∧
    ys = (valueTokens line).filterMap pyFloat ∧
    (valueTokens line = [] ∨
      (1000 ≤ lineYear line ∧ lineYear line ≤ 9999 ∧ (valueTokens line).length ≤ 12)) := by
  unfold processLine at h
  rw [Option.bind_eq_some] at h
  obtain ⟨year, hy, h⟩ := h
  have hly : lineYear line = year := by unfold lineYear; rw [hy]; rfl
  obtain ⟨h1, h2, h3⟩ := processRow_inv h
  refine ⟨by rw [hly]; exact hy, ?_, ?_, ?_⟩
  · rw [h1]
    unfold lineMonths valueTokens
    rw [hly]
    refine List.map_congr_left (fun k _ => ?_)
    have : 1 + k = k + 1 := by omega
    rw [this]
  · exact h2
  · rcases h3 with h3 | ⟨a, b, _, d⟩
    · exact Or.inl h3
    · exact Or.inr ⟨by omega, by omega, by unfold valueTokens; omega⟩

lemma normalize_inv {input : List String} {ts : List (Int × Nat)} {ys : List ℚ}
    (h : normalize input = some (ts, ys)) :
    ts = (input.map lineMonths).flatten ∧
    ys = (input.map (fun l => (valueTokens l).filterMap pyFloat)).flatten := by
  induction input generalizing ts ys with
  | nil =>
    simp only [normalize, Option.some.injEq, Prod.mk.injEq] at h
    obtain ⟨h1, h2⟩ := h
    subst h1; subst h2
    simp
  | cons l ls ih =>
    unfold normalize at h
    rw [Option.bind_eq_some] at h
    obtain ⟨p₁, hp₁, h⟩ := h
    rw [Option.map_eq_some'] at h
    obtain ⟨p₂, hp₂, h⟩ := h
    obtain ⟨ts₁, ys₁⟩ := p₁
    obtain ⟨ts₂, ys₂⟩ := p₂
    obtain ⟨i1, i2⟩ := ih hp₂
    obtain ⟨_, m1, m2, _⟩ := processLine_inv hp₁
    simp only [Prod.mk.injEq] at h
    obtain ⟨h1, h2⟩ := h
    subst h1; subst h2
    constructor
    · simp only [List.map_cons, List.flatten_cons]
      rw [← i1, ← m1]
    · simp only [List.map_cons, List.flatten_cons]
      rw [← i2, ← m2]

/-! ## Success lemmas -/

lemma validLine_iff {line : String} :
    validLine line = true ↔
      (∃ y, pyInt ((pyTokens line).headD "") = some y ∧ 1000 ≤ y ∧ y ≤ 9999) ∧
      (∀ t ∈ valueTokens line, (pyFloat t).isSome = true) ∧
      (valueTokens line).length ≤ 12 := by
  unfold validLine
  cases hy : pyInt ((pyTokens line).headD "") with
  | none => simp [Option.any, hy]
  | some y =>
    simp only [Option.any, Bool.and_eq_true, decide_eq_true_eq, List.all_eq_true,
      Option.some.injEq]
    constructor
    · rintro ⟨⟨⟨hy1, hy2⟩, hall⟩, hlen⟩
      exact ⟨⟨y, rfl, hy1, hy2⟩, hall, hlen⟩
    · rintro ⟨⟨y', hy', hy1, hy2⟩, hall, hlen⟩
      subst hy'
      exact ⟨⟨⟨hy1, hy2⟩, hall⟩, hlen⟩

lemma processRow_success {year : Int} {toks : List String} {i : Nat}
    (hy1 : 1000 ≤ year) (hy2 : year ≤ 9999)
    (hf : ∀ t ∈ toks, (pyFloat t).isSome = true)
    (hi : 1 ≤ i) (hlen : i + toks.length ≤ 13) :
    ∃ ts ys, processRow year i toks = some (ts, ys) ∧
      ts.length = toks.length ∧ ys.length = toks.length := by
  induction toks generalizing i with
  | nil => exact ⟨[], [], rfl, rfl, rfl⟩
  | cons t rest ih =>
    obtain ⟨v, hv⟩ := Option.isSome_iff_exists.mp (hf t (by simp))
    simp only [List.length_cons] at hlen
    have hi12 : i ≤ 12 := by omega
    have hd : strptimeYM year i = some (year, i) := by
      unfold strptimeYM
      rw [if_pos ⟨hy1, hy2, hi, hi12⟩]
    have hf' : ∀ t' ∈ rest, (pyFloat t').isSome = true :=
      fun t' ht' => hf t' (by simp [ht'])
    have hi' : 1 ≤ i + 1 := by omega
    have hlen' : i + 1 + rest.length ≤ 13 := by omega
    obtain ⟨ts, ys, hrec, l1, l2⟩ := ih hf' hi' hlen'
    refine ⟨(year, i) :: ts, v :: ys, ?_, by simp [l1], by simp [l2]⟩
    rw [processRow_cons, hv]
    simp [hd, hrec]

lemma processLine_success {line : String} (hv : validLine line = true) :
    ∃ ts ys, processLine line = some (ts, ys) ∧
      ts.length = (valueTokens line).length ∧ ys.length = (valueTokens line).length := by
  obtain ⟨⟨y, hy, hy1, hy2⟩, hall, hlen⟩ := validLine_iff.mp hv
  obtain ⟨ts, ys, hrow, l1, l2⟩ :=
    processRow_success hy1 hy2 hall (le_refl 1) (by omega)
  exact ⟨ts, ys, by unfold processLine; rw [hy]; exact hrow, l1, l2⟩

lemma normalize_success {input : List String} (hv : ∀ l ∈ input, validLine l = true) :
    ∃ ts ys, normalize input = some (ts, ys) ∧
      ts.length = totalValues input ∧ ys.length = totalValues input := by
  induction input with
  | nil => exact ⟨[], [], rfl, rfl, rfl⟩
  | cons l ls ih =>
    obtain ⟨ts₁, ys₁, h1, l11, l12⟩ := processLine_success (hv l (by simp))
    obtain ⟨ts₂, ys₂, h2, l21, l22⟩ := ih (fun x hx => hv x (by simp [hx]))
    refine ⟨ts₁ ++ ts₂, ys₁ ++ ys₂, ?_, ?_, ?_⟩
    · unfold normalize
      rw [h1]
      simp [h2]
    · simp only [totalValues, List.map_cons, List.sum_cons, List.length_append]
      rw [l11, l21]
      rfl
    · simp only [totalValues, List.map_cons, List.sum_cons, List.length_append]
      rw [l12, l22]
      rfl

/-! ## Failure lemmas -/

lemma processRow_none_of_badFloat {year : Int} {toks : List String} {i : Nat}
    (h : ∃ t ∈ toks, pyFloat t = none) : processRow year i toks = none := by
  induction toks generalizing i with
  | nil => simp at h
  | cons t rest ih =>
    rw [processRow_cons]
    obtain ⟨t', ht', hbad⟩ := h
    rcases List.mem_cons.mp ht' with rfl | hmem
    · rw [hbad]; rfl
    · cases hf : pyFloat t with
      | none => rfl
      | some v =>
        have hrec : processRow year (i + 1) rest = none := ih ⟨t', hmem, hbad⟩
        cases hs : strptimeYM year i <;> simp [hs, hrec]

lemma processRow_none_of_overflow {year : Int} {toks : List String} {i : Nat}
    (hi : i ≤ 13) (hlen : 14 ≤ i + toks.length) : processRow year i toks = none := by
  induction toks generalizing i with
  | nil => simp at hlen; omega
  | cons t rest ih =>
    rw [processRow_cons]
    cases hf : pyFloat t with
    | none => rfl
    | some v =>
      by_cases h13 : i ≤ 12
      · simp only [List.length_cons] at hlen
        have hrec : processRow year (i + 1) rest = none := ih (by omega) (by omega)
        cases hs : strptimeYM year i <;> simp [hs, hrec]
      · have hs : strptimeYM year i = none := by
          unfold strptimeYM
          rw [if_neg]
          rintro ⟨_, _, _, h12⟩
          omega
        simp [hs]

lemma normalize_none_of_mem {input : List String} {l : String}
    (hmem : l ∈ input) (hl : processLine l = none) : normalize input = none := by
  induction input with
  | nil => simp at hmem
  | cons x xs ih =>
    unfold normalize
    rcases List.mem_cons.mp hmem with rfl | hmem'
    · rw [hl]; rfl
    · cases hx : processLine x with
      | none => rfl
      | some p => simp [hx, ih hmem']

lemma processLine_none_of_malformed {l : String} (h : malformedLine l = true) :
    processLine l = none := by
  unfold malformedLine at h
  rw [Bool.or_eq_true] at h
  rcases h with h | h
  · unfold processLine
    rw [Option.isNone_iff_eq_none.mp h]
    rfl
  · rw [List.any_eq_true] at h
    obtain ⟨t, ht, hbad⟩ := h
    unfold processLine
    cases hy : pyInt ((pyTokens l).headD "") with
    | none => rfl
    | some year =>
      exact processRow_none_of_badFloat ⟨t, ht, Option.isNone_iff_eq_none.mp hbad⟩

/-! ## Calendar monotonicity -/

lemma daysBeforeMonth_lt {b : Bool} {m m' : Nat}
    (h1 : 1 ≤ m) (h2 : m < m') (h3 : m' ≤ 12) :
    daysBeforeMonth b m < daysBeforeMonth b m' := by
  cases b <;> interval_cases m' <;> interval_cases m <;> decide

lemma daysBeforeMonth_bounds {b : Bool} {m : Nat} (h1 : 1 ≤ m) (h2 : m ≤ 12) :
    0 ≤ daysBeforeMonth b m ∧ daysBeforeMonth b m ≤ 335 := by
  cases b <;> interval_cases m <;> decide

lemma leapDaysBefore_mono {y y' : Int} (h : y ≤ y') :
    leapDaysBefore y ≤ leapDaysBefore y' := by
  unfold leapDaysBefore
  omega

lemma daysFromEpoch_lt_year {y y' : Int} {m m' : Nat}
    (hy : y < y') (hm1 : 1 ≤ m) (hm2 : m ≤ 12) (hm1' : 1 ≤ m') (hm2' : m' ≤ 12) :
    daysFromEpoch y m < daysFromEpoch y' m' := by
  unfold daysFromEpoch
  have b1 := daysBeforeMonth_bounds (b := isLeap y) hm1 hm2
  have b2 := daysBeforeMonth_bounds (b := isLeap y') hm1' hm2'
  have hlb := leapDaysBefore_mono (le_of_lt hy)
  omega

lemma daysFromEpoch_lt_month {y : Int} {m m' : Nat}
    (hm1 : 1 ≤ m) (h : m < m') (hm2' : m' ≤ 12) :
    daysFromEpoch y m < daysFromEpoch y m' := by
  unfold daysFromEpoch
  have := daysBeforeMonth_lt (b := isLeap y) hm1 h hm2'
  omega

lemma epochOfDate_le_iff {tz : Int} {d d' : Int × Nat}
    (h1 : 1 ≤ d.2) (h2 : d.2 ≤ 12) (h1' : 1 ≤ d'.2) (h2' : d'.2 ≤ 12) :
    epochOfDate tz d ≤ epochOfDate tz d' ↔ dateLe d d' := by
  obtain ⟨y, m⟩ := d
  obtain ⟨y', m'⟩ := d'
  have h1 : 1 ≤ m := h1
  have h2 : m ≤ 12 := h2
  have h1' : 1 ≤ m' := h1'
  have h2' : m' ≤ 12 := h2'
  unfold epochOfDate dateLe
  show 86400 * daysFromEpoch y m - tz ≤ 86400 * daysFromEpoch y' m' - tz ↔
    (y < y' ∨ (y = y' ∧ m ≤ m'))
  constructor
  · intro hle
    by_contra hnot
    push_neg at hnot
    obtain ⟨hy, hm⟩ := hnot
    rcases lt_or_eq_of_le hy with hlt | heq
    · have := daysFromEpoch_lt_year hlt h1' h2' h1 h2
      omega
    · subst heq
      have := daysFromEpoch_lt_month h1' (hm rfl) h2 (y := y')
      omega
  · rintro (hlt | ⟨heq, hm⟩)
    · have := daysFromEpoch_lt_year hlt h1 h2 h1' h2'
      omega
    · subst heq
      rcases eq_or_lt_of_le hm with he | hlt2
      · subst he
        omega
      · have := daysFromEpoch_lt_month h1 hlt2 h2' (y := y)
        omega

/-! ## Ordering of the emitted timestamp array -/

lemma dateLe_mk_iff {y y' : Int} {m m' : Nat} :
    dateLe (y, m) (y', m') ↔ (y < y' ∨ (y = y' ∧ m ≤ m')) := Iff.rfl

lemma chain'_lineMonths_epoch {tz : Int} {l : String}
    (hlen : (valueTokens l).length ≤ 12) :
    List.Chain' (fun a b => epochOfDate tz a ≤ epochOfDate tz b) (lineMonths l) := by
  unfold lineMonths
  rw [List.chain'_map]
  cases hn : (valueTokens l).length with
  | zero => simp
  | succ n =>
    rw [List.chain'_range_succ]
    intro k hk
    have hb1 : 1 ≤ k + 1 := Nat.le_add_left 1 k
    have hb2 : k + 1 ≤ 12 := by omega
    have hb1' : 1 ≤ k + 1 + 1 := Nat.le_add_left 1 (k + 1)
    have hb2' : k + 1 + 1 ≤ 12 := by omega
    rw [epochOfDate_le_iff hb1 hb2 hb1' hb2']
    rw [dateLe_mk_iff]
    exact Or.inr ⟨rfl, by omega⟩

lemma lineMonths_head? {l : String} (h : 1 ≤ (valueTokens l).length) :
    (lineMonths l).head? = some (lineYear l, 1) := by
  unfold lineMonths
  cases hn : (valueTokens l).length with
  | zero => omega
  | succ n =>
    rw [List.range_succ_eq_map]
    simp

lemma lineMonths_getLast? {l : String} (h : 1 ≤ (valueTokens l).length) :
    (lineMonths l).getLast? = some (lineYear l, (valueTokens l).length) := by
  unfold lineMonths
  cases hn : (valueTokens l).length with
  | zero => omega
  | succ n =>
    rw [List.range_succ, List.map_append, List.map_cons, List.map_nil,
      List.getLast?_concat]

lemma rowDates_head {l : String} {rest : List String}
    (h : 1 ≤ (valueTokens l).length) :
    (((l :: rest).map lineMonths).flatten).head? = some (lineYear l, 1) := by
  simp only [List.map_cons, List.flatten_cons, List.head?_append]
  rw [lineMonths_head? h]
  rfl

lemma chain'_epoch_of_strict {tz : Int} {input : List String}
    (hval : ∀ l ∈ input, (valueTokens l).length ≤ 12)
    (hne : ∀ l ∈ input, 1 ≤ (valueTokens l).length)
    (hyears : List.Chain' (· < ·) (yearsOf input)) :
    List.Chain' (fun a b => epochOfDate tz a ≤ epochOfDate tz b)
      ((input.map lineMonths).flatten) := by
  induction input with
  | nil => simp
  | cons l rest ih =>
    simp only [List.map_cons, List.flatten_cons]
    rw [List.chain'_append]
    refine ⟨chain'_lineMonths_epoch (hval l (by simp)), ?_, ?_⟩
    · refine ih (fun x hx => hval x (by simp [hx])) (fun x hx => hne x (by simp [hx])) ?_
      have : List.Chain' (· < ·) (lineYear l :: yearsOf rest) := by
        simpa [yearsOf] using hyears
      exact this.tail
    · intro x hx z hz
      cases rest with
      | nil => simp at hz
      | cons l₂ rest₂ =>
        rw [lineMonths_getLast? (hne l (by simp))] at hx
        rw [rowDates_head (hne l₂ (by simp))] at hz
        have hx' : (lineYear l, (valueTokens l).length) = x := by
          simpa using hx
        have hz' : (lineYear l₂, 1) = z := by
          simpa using hz
        subst hx'; subst hz'
        have hy : lineYear l < lineYear l₂ := by
          have hc : List.Chain' (· < ·) (lineYear l :: lineYear l₂ :: yearsOf rest₂) := by
            simpa [yearsOf] using hyears
          exact (List.chain'_cons.mp hc).1
        have hb2 : (valueTokens l).length ≤ 12 := hval l (by simp)
        have hb1 : 1 ≤ (valueTokens l).length := hne l (by simp)
        rw [epochOfDate_le_iff hb1 hb2 (le_refl 1) (by omega)]
        rw [dateLe_mk_iff]
        exact Or.inl hy

lemma years_mono_of_chain'_epoch {tz : Int} {input : List String}
    (hval : ∀ l ∈ input, (valueTokens l).length ≤ 12)
    (hne : ∀ l ∈ input, 1 ≤ (valueTokens l).length)
    (hchain : List.Chain' (fun a b => epochOfDate tz a ≤ epochOfDate tz b)
      ((input.map lineMonths).flatten)) :
    List.Chain' (· ≤ ·) (yearsOf input) := by
  induction input with
  | nil => simp [yearsOf]
  | cons l rest ih =>
    cases rest with
    | nil => simp [yearsOf]
    | cons l₂ rest₂ =>
      simp only [List.map_cons, List.flatten_cons] at hchain
      rw [List.chain'_append] at hchain
      obtain ⟨h1, h2, h3⟩ := hchain
      have hrec : List.Chain' (· ≤ ·) (yearsOf (l₂ :: rest₂)) := by
        refine ih (fun x hx => hval x (by simp [hx])) (fun x hx => hne x (by simp [hx])) ?_
        simpa only [List.map_cons, List.flatten_cons] using h2
      have hxmem : (lineYear l, (valueTokens l).length) ∈ (lineMonths l).getLast? := by
        rw [lineMonths_getLast? (hne l (by simp))]
        rfl
      have hzmem : (lineYear l₂, 1) ∈ (((l₂ :: rest₂).map lineMonths).flatten).head? := by
        rw [rowDates_head (hne l₂ (by simp))]
        rfl
      have hj := h3 _ hxmem _ hzmem
      have hb2 : (valueTokens l).length ≤ 12 := hval l (by simp)
      have hb1 : 1 ≤ (valueTokens l).length := hne l (by simp)
      rw [epochOfDate_le_iff hb1 hb2 (le_refl 1) (by omega)] at hj
      rw [dateLe_mk_iff] at hj
      have hle : lineYear l ≤ lineYear l₂ := by
        rcases hj with h | ⟨h, _⟩
        · exact le_of_lt h
        · exact le_of_eq h
      have : List.Chain' (· ≤ ·) (lineYear l :: lineYear l₂ :: yearsOf rest₂) := by
        rw [List.chain'_cons]
        exact ⟨hle, by simpa [yearsOf] using hrec⟩
      simpa [yearsOf] using this

/-! ## Further helper lemmas -/

lemma normalize_cons (l : String) (ls : List String) :
    normalize (l :: ls) =
      (processLine l).bind fun p₁ =>
        (normalize ls).map fun p₂ => (p₁.1 ++ p₂.1, p₁.2 ++ p₂.2) := rfl

lemma normalize_cons_empty {l : String} (hl : processLine l = some ([], []))
    (ls : List String) : normalize (l :: ls) = normalize ls := by
  rw [normalize_cons, hl]
  cases hn : normalize ls with
  | none => rfl
  | some p => rfl

lemma normalize_insert_empty {l : String} (hl : processLine l = some ([], []))
    (pre post : List String) :
    normalize (pre ++ l :: post) = normalize (pre ++ post) := by
  induction pre with
  | nil => exact normalize_cons_empty hl post
  | cons x pre ih =>
    have e1 : (x :: pre) ++ l :: post = x :: (pre ++ l :: post) := rfl
    have e2 : (x :: pre) ++ post = x :: (pre ++ post) := rfl
    rw [e1, e2, normalize_cons, normalize_cons, ih]

lemma rstrip_head (c : Char) (cs : List Char) :
    rstripChars (c :: cs) = [] ∨ ∃ ds, rstripChars (c :: cs) = c :: ds := by
  unfold rstripChars
  split
  · exact Or.inl rfl
  · exact Or.inr ⟨_, rfl⟩

lemma pyTokens_head_empty {l : String} (hb : lineStartsBlank l = true) :
    (pyTokens l).headD "" = "" := by
  unfold lineStartsBlank at hb
  unfold pyTokens
  cases hc : l.toList with
  | nil => rfl
  | cons c cs =>
    rw [hc] at hb
    have hbc : isPySpace c = true := hb
    rcases rstrip_head c cs with he | ⟨ds, he⟩
    · rw [he]; rfl
    · rw [he]
      show (splitRuns (c :: ds) false []).headD "" = ""
      unfold splitRuns
      simp only [hbc, if_true, Bool.false_eq_true, if_false]
      rfl

/-! ## The claims -/

/-- Claim C1, counterexample: the input line `"50 1.0"` satisfies the claim's
notion of validity (the first token parses as an integer, every value token
parses as a float, and the months stay within calendar range), yet the run
aborts with no output at all — `strptime`'s `%Y` pattern requires a four-digit
year, so `"50-01"` fails to parse — and hence the output arrays do not have
length `T = 1`. -/
theorem C1_cex :
    (pyInt ((pyTokens "50 1.0").headD "") = some 50 ∧
      (∀ t ∈ valueTokens "50 1.0", (pyFloat t).isSome = true) ∧
      (valueTokens "50 1.0").length ≤ 12) ∧
    runOutput 0 ["50 1.0"] = none := by decide

/-- Claim C1 (amended): for every input in which each line's first token
parses as an integer with exactly four decimal digits (1000–9999), all
subsequent tokens parse as floats, and each line has at most 12 value
tokens, the output arrays `ts` and `ys` each have length exactly the total
number of value tokens across all rows; in particular they have identical
length. -/
theorem C1_lengths (tz : Int) (input : List String)
    (hv : ∀ l ∈ input, validLine l = true) :
    ∃ ts ys, runOutput tz input = some (ts, ys) ∧
      ts.length = totalValues input ∧ ys.length = totalValues input := by
  obtain ⟨ts, ys, hn, l1, l2⟩ := normalize_success hv
  refine ⟨ts.map (epochOfDate tz), ys, ?_, by simp [l1], l2⟩
  unfold runOutput
  rw [hn]
  rfl

/-- Witness for C1 (amended) at a concrete two-row input with T = 4. -/
theorem C1_lengths_witness :
    (∀ l ∈ ["2000 1.0 2.0 3.0", "2001 4.0"], validLine l = true) ∧
    ∃ ts ys, runOutput 0 ["2000 1.0 2.0 3.0", "2001 4.0"] = some (ts, ys) ∧
      ts.length = totalValues ["2000 1.0 2.0 3.0", "2001 4.0"] ∧
      ys.length = totalValues ["2000 1.0 2.0 3.0", "2001 4.0"] :=
  ⟨by decide, C1_lengths 0 _ (by decide)⟩

/-- Claim C2: converting the single row `"2000 1.0 2.0 3.0"` yields
`ts = [t(2000-01-01), t(2000-02-01), t(2000-03-01)]` and `ys = [1.0, 2.0, 3.0]`,
where `t` is the epoch-second value of that date's local midnight (for any
fixed local-zone offset `tz`), the day of month being pinned to the first. -/
theorem C2_roundtrip (tz : Int) :
    runOutput tz ["2000 1.0 2.0 3.0"] =
      some ([epochOfDate tz (2000, 1), epochOfDate tz (2000, 2), epochOfDate tz (2000, 3)],
        [1, 2, 3]) := by
  have hn : normalize ["2000 1.0 2.0 3.0"] =
      some ([(2000, 1), (2000, 2), (2000, 3)], [1, 2, 3]) := by decide
  unfold runOutput
  rw [hn]
  rfl

/-- Claim C3: on any successful run, the emitted pairs appear exactly in
input order — `ts` is the concatenation, row by row, of each row's months
1, 2, ... (one per value token, in token order) rendered as epoch seconds,
and `ys` is the concatenation, row by row and token by token, of the value
tokens parsed as floats. -/
theorem C3_order (tz : Int) (input : List String) (p : List Int × List ℚ)
    (h : runOutput tz input = some p) :
    p.1 = ((input.map lineMonths).flatten).map (epochOfDate tz) ∧
    p.2 = (input.map (fun l => (valueTokens l).filterMap pyFloat)).flatten := by
  unfold runOutput at h
  rw [Option.map_eq_some'] at h
  obtain ⟨q, hq, hp⟩ := h
  obtain ⟨i1, i2⟩ := normalize_inv hq
  subst hp
  exact ⟨by rw [i1], i2⟩

/-- Witness for C3 at a concrete two-row input. -/
theorem C3_order_witness :
    ([946684800, 949363200, 978307200] : List Int) =
      (((["2000 1.0 2.0", "2001 3.0"]).map lineMonths).flatten).map (epochOfDate 0) ∧
    ([1, 2, 3] : List ℚ) =
      ((["2000 1.0 2.0", "2001 3.0"]).map
        (fun l => (valueTokens l).filterMap pyFloat)).flatten :=
  C3_order 0 ["2000 1.0 2.0", "2001 3.0"] ([946684800, 949363200, 978307200], [1, 2, 3])
    (by decide)

/-- Claim C4, counterexample: for the valid input `["2000 1.0 2.0", "2000 3.0"]`
the rows are in non-decreasing year order, yet the emitted `ts` array is not
non-decreasing (the second row restarts at January of the same year), so the
claimed equivalence fails in the direction "years non-decreasing implies `ts`
non-decreasing". -/
theorem C4_cex :
    (∀ l ∈ ["2000 1.0 2.0", "2000 3.0"], validLine l = true) ∧
    List.Chain' (· ≤ ·) (yearsOf ["2000 1.0 2.0", "2000 3.0"]) ∧
    runOutput 0 ["2000 1.0 2.0", "2000 3.0"] =
      some ([946684800, 949363200, 946684800], [1, 2, 3]) ∧
    ¬ List.Chain' (· ≤ ·) ([946684800, 949363200, 946684800] : List Int) := by
  refine ⟨by decide, ?_, by decide, ?_⟩
  · have hy : yearsOf ["2000 1.0 2.0", "2000 3.0"] = [2000, 2000] := by decide
    rw [hy]
    exact List.chain'_pair.mpr (le_refl 2000)
  · intro hc
    rw [List.chain'_cons, List.chain'_cons] at hc
    have h12 := hc.2.1
    omega

/-- Claim C4 (amended): for every valid input (four-digit years, parsable
floats, at most 12 value tokens per row) in which every row has at least one
value token, the emitted `ts` array is non-decreasing whenever the rows are in
strictly increasing year order, and conversely, if `ts` is non-decreasing then
the rows are in non-decreasing year order. -/
theorem C4_monotone (tz : Int) (input : List String) (p : List Int × List ℚ)
    (hv : ∀ l ∈ input, validLine l = true)
    (hne : ∀ l ∈ input, 1 ≤ (valueTokens l).length)
    (h : runOutput tz input = some p) :
    (List.Chain' (· < ·) (yearsOf input) → List.Chain' (· ≤ ·) p.1) ∧
    (List.Chain' (· ≤ ·) p.1 → List.Chain' (· ≤ ·) (yearsOf input)) := by
  have hval : ∀ l ∈ input, (valueTokens l).length ≤ 12 :=
    fun l hl => (validLine_iff.mp (hv l hl)).2.2
  unfold runOutput at h
  rw [Option.map_eq_some'] at h
  obtain ⟨q, hq, hp⟩ := h
  obtain ⟨i1, _⟩ := normalize_inv hq
  subst hp
  constructor
  · intro hs
    show List.Chain' (· ≤ ·) (q.1.map (epochOfDate tz))
    rw [i1, List.chain'_map]
    exact chain'_epoch_of_strict hval hne hs
  · intro hc
    have hc' : List.Chain' (· ≤ ·) (q.1.map (epochOfDate tz)) := hc
    rw [i1, List.chain'_map] at hc'
    exact years_mono_of_chain'_epoch hval hne hc'

/-- Witness for C4 (amended) at a concrete strictly-increasing input. -/
theorem C4_monotone_witness :
    (List.Chain' (· < ·) (yearsOf ["2000 1.0", "2001 2.0"]) →
      List.Chain' (· ≤ ·) (([946684800, 978307200] : List Int)) ) ∧
    (List.Chain' (· ≤ ·) (([946684800, 978307200] : List Int)) →
      List.Chain' (· ≤ ·) (yearsOf ["2000 1.0", "2001 2.0"])) :=
  C4_monotone 0 ["2000 1.0", "2001 2.0"] ([946684800, 978307200], [1, 2])
    (by decide) (by decide) (by decide)

/-- Claim C5: an input containing a line with a malformed token (first token
rejected by `int`, or any value token rejected by `float`) makes the run die
before the single final print, so no JSON document is written at all. -/
theorem C5_fatal (tz : Int) (input : List String)
    (h : ∃ l ∈ input, malformedLine l = true) :
    jsonDoc tz input = none := by
  obtain ⟨l, hl, hm⟩ := h
  unfold jsonDoc runOutput
  rw [normalize_none_of_mem hl (processLine_none_of_malformed hm)]
  rfl

/-- Witness for C5 at the spec's own example `"2000 abc"`. -/
theorem C5_fatal_witness : jsonDoc 0 ["2000 abc"] = none :=
  C5_fatal 0 ["2000 abc"] ⟨"2000 abc", by decide, by decide⟩

/-- Claim C6: an input containing a row with more than 12 value tokens always
aborts the run with no JSON output — month 13 cannot be parsed back by
`strptime`/`datetime`, and the months are never wrapped into the next year. -/
theorem C6_month_overflow (tz : Int) (input : List String)
    (h : ∃ l ∈ input, 12 < (valueTokens l).length) :
    jsonDoc tz input = none := by
  obtain ⟨l, hl, hlen⟩ := h
  have hline : processLine l = none := by
    unfold processLine
    cases hy : pyInt ((pyTokens l).headD "") with
    | none => rfl
    | some year =>
      refine processRow_none_of_overflow (by omega) ?_
      unfold valueTokens at hlen
      omega
  unfold jsonDoc runOutput
  rw [normalize_none_of_mem hl hline]
  rfl

/-- Witness for C6 at a row with 13 value tokens. -/
theorem C6_month_overflow_witness :
    jsonDoc 0 ["1000 1 2 3 4 5 6 7 8 9 10 11 12 13"] = none :=
  C6_month_overflow 0 ["1000 1 2 3 4 5 6 7 8 9 10 11 12 13"]
    ⟨"1000 1 2 3 4 5 6 7 8 9 10 11 12 13", by decide, by decide⟩

/-- Claim C7: on success the process writes exactly one JSON document: an
object with exactly the two fields `ts` and `ys`, the `ts` field being an
array all of whose elements are integers and the `ys` field an array all of
whose elements are (float) numbers, with nothing else in the document. -/
theorem C7_json_shape (tz : Int) (input : List String) (p : List Int × List ℚ)
    (h : runOutput tz input = some p) :
    ∃ j, jsonDoc tz input = some j ∧
      Json.keys j = ["ts", "ys"] ∧
      (∃ a, Json.field j "ts" = some a ∧ a.isIntArray = true) ∧
      (∃ b, Json.field j "ys" = some b ∧ b.isNumArray = true) := by
  refine ⟨Json.jobj [("ts", Json.jarr (p.1.map Json.jint)),
      ("ys", Json.jarr (p.2.map Json.jnum))], ?_, rfl, ?_, ?_⟩
  · unfold jsonDoc
    rw [h]
    rfl
  · refine ⟨Json.jarr (p.1.map Json.jint), rfl, ?_⟩
    unfold Json.isIntArray
    rw [List.all_eq_true]
    intro x hx
    rw [List.mem_map] at hx
    obtain ⟨n, _, rfl⟩ := hx
    rfl
  · refine ⟨Json.jarr (p.2.map Json.jnum), rfl, ?_⟩
    unfold Json.isNumArray
    rw [List.all_eq_true]
    intro x hx
    rw [List.mem_map] at hx
    obtain ⟨n, _, rfl⟩ := hx
    rfl

/-- Witness for C7 at a concrete one-row input. -/
theorem C7_json_shape_witness :
    ∃ j, jsonDoc 0 ["2000 1.0"] = some j ∧
      Json.keys j = ["ts", "ys"] ∧
      (∃ a, Json.field j "ts" = some a ∧ a.isIntArray = true) ∧
      (∃ b, Json.field j "ys" = some b ∧ b.isNumArray = true) :=
  C7_json_shape 0 ["2000 1.0"] ([946684800], [1]) (by decide)

/-- Claim C8: converting the rows `"2000 1.0"` then `"2001 2.0"` yields a
two-element `ts` whose second entry exceeds the first by exactly the elapsed
seconds of the leap year 2000, namely 366 · 86400 = 31622400, and
`ys = [1.0, 2.0]` — for any fixed local-zone offset `tz`. -/
theorem C8_year_gap (tz : Int) :
    ∃ a b, runOutput tz ["2000 1.0", "2001 2.0"] = some ([a, b], [1, 2]) ∧
      b - a = 31622400 := by
  refine ⟨epochOfDate tz (2000, 1), epochOfDate tz (2001, 1), ?_, ?_⟩
  · have hn : normalize ["2000 1.0", "2001 2.0"] =
        some ([(2000, 1), (2001, 1)], [1, 2]) := by decide
    unfold runOutput
    rw [hn]
    rfl
  · unfold epochOfDate
    show 86400 * daysFromEpoch 2001 1 - tz - (86400 * daysFromEpoch 2000 1 - tz) = 31622400
    have h1 : daysFromEpoch 2000 1 = 10957 := by decide
    have h2 : daysFromEpoch 2001 1 = 11323 := by decide
    rw [h1, h2]
    omega

/-- Claim C9: a line consisting of a single token that parses as an integer
is accepted and contributes nothing — the output is identical to the output
for the same input without that line. -/
theorem C9_bare_year (tz : Int) (pre post : List String) (l : String)
    (h : ∃ s y, pyTokens l = [s] ∧ pyInt s = some y) :
    runOutput tz (pre ++ l :: post) = runOutput tz (pre ++ post) := by
  obtain ⟨s, y, hs, hy⟩ := h
  have hl : processLine l = some ([], []) := by
    unfold processLine
    rw [hs]
    show (pyInt s).bind (fun year => processRow year 1 []) = some ([], [])
    rw [hy]
    rfl
  unfold runOutput
  rw [normalize_insert_empty hl]

/-- Witness for C9: inserting a bare `"1999"` line between two data rows. -/
theorem C9_bare_year_witness :
    runOutput 0 (["2000 1.0"] ++ "1999" :: ["2001 2.0"]) =
      runOutput 0 (["2000 1.0"] ++ ["2001 2.0"]) :=
  C9_bare_year 0 ["2000 1.0"] ["2001 2.0"] "1999" ⟨"1999", 1999, by decide, by decide⟩

/-- Claim C10: a line that is empty or begins with a whitespace character is
fatal — right-stripping leaves the leading whitespace, so the regex split
produces an empty first token, which `int` rejects — and hence no JSON
document is written. -/
theorem C10_leading_blank (tz : Int) (input : List String)
    (h : ∃ l ∈ input, lineStartsBlank l = true) :
    jsonDoc tz input = none := by
  obtain ⟨l, hl, hb⟩ := h
  have h0 : (pyTokens l).headD "" = "" := pyTokens_head_empty hb
  have hline : processLine l = none := by
    unfold processLine
    rw [h0]
    rfl
  unfold jsonDoc runOutput
  rw [normalize_none_of_mem hl hline]
  rfl

/-- Witness for C10 at the line `" 2000 1.0"` (leading space). -/
theorem C10_leading_blank_witness : jsonDoc 0 [" 2000 1.0"] = none :=
  C10_leading_blank 0 [" 2000 1.0"] ⟨" 2000 1.0", by decide, by decide⟩

end ConvertFrame

-- Concrete evaluations of the embedding, checking the parsers and the
-- pipeline against hand-computed values of the Python script.
example : ConvertFrame.pyTokens "2000 1.0 2.0 3.0" = ["2000", "1.0", "2.0", "3.0"] := by decide
example : ConvertFrame.pyTokens " 2000 1.0" = ["", "2000", "1.0"] := by decide
example : ConvertFrame.pyTokens "" = [""] := by decide
example : ConvertFrame.pyTokens "2000\n" = ["2000"] := by decide
example : ConvertFrame.pyInt "2000" = some 2000 := by decide
example : ConvertFrame.pyInt "" = none := by decide
example : ConvertFrame.pyInt "-5" = some (-5) := by decide
example : ConvertFrame.pyFloat "1.0" = some 1 := by decide
example : ConvertFrame.pyFloat "2.5" = some (mkRat 5 2) := by decide
example : ConvertFrame.pyFloat "abc" = none := by decide
example : ConvertFrame.pyFloat "1e2" = some 100 := by decide
example : ConvertFrame.pyFloat "-1.5e-1" = some (mkRat (-3) 20) := by decide
example : ConvertFrame.pyFloat ".5" = some (mkRat 1 2) := by decide
example : ConvertFrame.pyFloat "." = none := by decide
example : ConvertFrame.daysFromEpoch 2000 1 = 10957 := by decide
example : ConvertFrame.daysFromEpoch 2000 2 = 10988 := by decide
example : ConvertFrame.daysFromEpoch 2000 3 = 11017 := by decide
example : ConvertFrame.daysFromEpoch 2001 1 = 11323 := by decide
example : ConvertFrame.runOutput 0 ["2000 1.0 2.0 3.0"] =
    some ([946684800, 949363200, 951868800], [1, 2, 3]) := by decide
example : ConvertFrame.runOutput 0 ["50 1.0"] = none := by decide
example : ConvertFrame.runOutput 0 ["2000 abc"] = none := by decide
example : ConvertFrame.runOutput 0 [" 2000 1.0"] = none := by decide
example : ConvertFrame.runOutput 0 ["1999"] = some ([], []) := by decide
